import Mathlib

/-!
Verification of the appointment logic of the beam-health backend
(src/main.py): a shallow embedding of the active-appointment resolver
(`get_active_appointment`) and of the per-patient upcoming-appointment query
(`get_current_appointment`), together with theorems about their filtering,
window matching, time normalization, selection and error behaviour.
-/

namespace BeamHealth

/-- A naive (timezone-free) datetime, as produced by Python's
`datetime.fromisoformat` on the stored `start` strings. -/
structure PDateTime where
  year : Nat
  month : Nat
  day : Nat
  hour : Nat
  minute : Nat
  second : Nat
deriving Repr, DecidableEq

/-- Gregorian leap-year test. -/
def isLeap (y : Nat) : Bool := y % 4 == 0 && (y % 100 != 0 || y % 400 == 0)

/-- Number of days in month `m` of year `y`. -/
def daysInMonth (y m : Nat) : Nat :=
  if m = 2 then (if isLeap y then 29 else 28)
  else if m = 4 ∨ m = 6 ∨ m = 9 ∨ m = 11 then 30
  else 31

/-- Days contributed by all years strictly before year `y` in the proleptic
Gregorian calendar (year 1 is the first year), as in `datetime.toordinal`. -/
def daysBeforeYear (y : Nat) : Nat :=
  let n := y - 1
  n * 365 + n / 4 - n / 100 + n / 400

/-- Days contributed by the months of year `y` strictly before month `m`. -/
def daysBeforeMonth (y m : Nat) : Nat :=
  (List.range (m - 1)).foldl (fun acc i => acc + daysInMonth y (i + 1)) 0

/-- The instant denoted by a naive datetime, as a count of seconds from the
proleptic Gregorian epoch.  Python's structural `datetime` comparison and its
`timedelta` addition are modelled as arithmetic on this count, which agrees
with them on all valid dates. -/
def toSeconds (t : PDateTime) : Nat :=
  (daysBeforeYear t.year + daysBeforeMonth t.year t.month + (t.day - 1)) * 86400
    + t.hour * 3600 + t.minute * 60 + t.second

/-- Range validity of datetime components, as enforced by
`datetime.fromisoformat` (out-of-range components raise `ValueError`). -/
def validParts (y mo d h mi s : Nat) : Bool :=
  decide (1 ≤ y) && decide (y ≤ 9999) && decide (1 ≤ mo) && decide (mo ≤ 12)
    && decide (1 ≤ d) && decide (d ≤ daysInMonth y mo)
    && decide (h ≤ 23) && decide (mi ≤ 59) && decide (s ≤ 59)

/-- Decimal value of an ASCII digit. -/
def digitVal (c : Char) : Option Nat :=
  if c.isDigit then some (c.toNat - 48) else none

/-- Read exactly two decimal digits. -/
def read2 : List Char → Option (Nat × List Char)
  | c1 :: c2 :: rest =>
    match digitVal c1, digitVal c2 with
    | some d1, some d2 => some (10 * d1 + d2, rest)
    | _, _ => none
  | _ => none

/-- Read exactly four decimal digits. -/
def read4 : List Char → Option (Nat × List Char)
  | c1 :: c2 :: c3 :: c4 :: rest =>
    match digitVal c1, digitVal c2, digitVal c3, digitVal c4 with
    | some d1, some d2, some d3, some d4 =>
      some (1000 * d1 + 100 * d2 + 10 * d3 + d4, rest)
    | _, _, _, _ => none
  | _ => none

/-- Consume one expected character. -/
def expectChar (c : Char) : List Char → Option (List Char)
  | d :: rest => if d = c then some rest else none
  | [] => none

/-- Parse a trailing time-of-day part, HH:MM or HH:MM:SS, to exhaustion of
the input. -/
def parseTimePart (cs : List Char) : Option (Nat × Nat × Nat) :=
  match read2 cs with
  | none => none
  | some (h, cs1) =>
    match expectChar ':' cs1 with
    | none => none
    | some cs2 =>
      match read2 cs2 with
      | none => none
      | some (mi, cs3) =>
        match cs3 with
        | [] => some (h, mi, 0)
        | c :: cs4 =>
          if c = ':' then
            match read2 cs4 with
            | some (s, []) => some (h, mi, s)
            | _ => none
          else none

/-- Model of Python's `datetime.fromisoformat` on the ISO-8601 subset this
repository stores and this development exercises: `YYYY-MM-DD`, optionally
followed by a single separator character (any character, as Python allows)
and `HH:MM` or `HH:MM:SS`, with range-checked components.  Fractional
seconds, timezone offsets and further truncated forms are not modelled.
`none` models the `ValueError` such a string raises. -/
def fromisoformat (str : String) : Option PDateTime :=
  match read4 str.data with
  | none => none
  | some (y, cs1) =>
    match expectChar '-' cs1 with
    | none => none
    | some cs2 =>
      match read2 cs2 with
      | none => none
      | some (mo, cs3) =>
        match expectChar '-' cs3 with
        | none => none
        | some cs4 =>
          match read2 cs4 with
          | none => none
          | some (d, cs5) =>
            match cs5 with
            | [] =>
              if validParts y mo d 0 0 0 then some ⟨y, mo, d, 0, 0, 0⟩ else none
            | _sep :: cs6 =>
              match parseTimePart cs6 with
              | none => none
              | some (h, mi, s) =>
                if validParts y mo d h mi s then some ⟨y, mo, d, h, mi, s⟩
                else none

/-- One appointment record, as read from `appointments.json`.
`status` and `start` are `none` when the key is absent; `patient_id` is
`none` when the key is absent or its stored value is null (both make
Python's `apt.get` return `None`); `slot_duration` distinguishes an absent
key (`none`) from a stored null (`some none`), because
`apt.get("slot_duration", 30)` defaults only when the key is absent. -/
structure Apt where
  id : Int
  status : Option String
  patient_id : Option Int
  start : Option String
  slot_duration : Option (Option Int)
deriving Repr, DecidableEq

/-- The guard of src/main.py line 99,
`apt.get("status") == "booked" and apt.get("patient_id")`:
the patient id is tested for Python truthiness, so an absent id, a null id
and the integer 0 all fail the guard. -/
def bookedAssigned (apt : Apt) : Bool :=
  apt.status == some "booked" &&
    match apt.patient_id with
    | some n => n != 0
    | none => false

/-- The duration value the resolver feeds to `timedelta` (line 104):
`apt.get("slot_duration", 30)` yields 30 when the key is absent and the
stored integer when present; a stored null yields Python `None` (modelled
`none`), on which `timedelta` raises `TypeError`. -/
def durOf (apt : Apt) : Option Int :=
  match apt.slot_duration with
  | none => some 30
  | some none => none
  | some (some k) => some k

/-- The instant of a parsed start, as an integer of seconds, for comparison
and `timedelta` arithmetic. -/
def startSec (t : PDateTime) : Int := (toSeconds t : Int)

/-- The record scan of `get_active_appointment` (src/main.py lines 96-114):
records failing the booked-and-assigned guard are ignored; a missing `start`
key (`KeyError`) or an unparseable `start` value (`ValueError`) is caught by
the `except (ValueError, KeyError)` clause and the record skipped; a stored
null `slot_duration` reaches `timedelta(minutes=None)`, whose `TypeError` is
not caught and aborts the whole call; otherwise the record is collected
exactly when `start_time <= now < end_time`. -/
def collectActive (now : Int) : List Apt → Except String (List Apt)
  | [] => .ok []
  | apt :: rest =>
    if bookedAssigned apt then
      match apt.start with
      | none => collectActive now rest
      | some raw =>
        match fromisoformat raw with
        | none => collectActive now rest
        | some st =>
          match durOf apt with
          | none =>
            .error "TypeError: unsupported type for timedelta minutes component: NoneType"
          | some k =>
            if startSec st ≤ now ∧ now < startSec st + 60 * k then
              (collectActive now rest).map (fun l => apt :: l)
            else
              collectActive now rest
    else
      collectActive now rest

/-- The key of the final sort, `x.get("start", "")` (src/main.py line 124):
the raw start string, compared lexicographically as a Python string. -/
def startKey (apt : Apt) : String := apt.start.getD ""

/-- Lexicographic at-most comparison of character lists by Unicode code
point: the order Python uses to compare the `start` strings handed to
`sort`. -/
def listLe : List Char → List Char → Bool
  | [], _ => true
  | _ :: _, [] => false
  | c :: cs, d :: ds =>
    if c.toNat < d.toNat then true
    else if d.toNat < c.toNat then false
    else listLe cs ds

/-- Python's `<=` on strings: code-point lexicographic order. -/
def strLe (a b : String) : Bool := listLe a.data b.data

/-- Stable insertion into a list already sorted by `startKey`: the new
element goes in front of the first element whose key it is at most, which is
where Python's stable sort keeps an element that preceded its key-ties. -/
def insertByStart (a : Apt) : List Apt → List Apt
  | [] => [a]
  | b :: t =>
    if strLe (startKey a) (startKey b) then a :: b :: t else b :: insertByStart a t

/-- Model of `active_appointments.sort(key=lambda x: x.get("start", ""))`
(src/main.py line 124).  Python's `list.sort` is stable, and a stable sort
by key is unique as a function of its input, so this stable insertion sort
computes the same list as Python's mergesort-based implementation. -/
def sortByStart : List Apt → List Apt
  | [] => []
  | a :: t => insertByStart a (sortByStart t)

/-- The handler of `GET /api/appointments/active` (src/main.py lines
78-132), as a function of the appointment snapshot and of the UTC clock
reading `utcNow` (in seconds): the handler shifts the clock by
`timedelta(hours=-5)` and drops the timezone indicator (line 90), scans the
records, returns the empty object (modelled `none`) when nothing is active,
and otherwise the first record of the matches sorted by raw start string;
an exception reaching the outer handler becomes an HTTP 500 response
(modelled `.error`). -/
def get_active_appointment (appointments : List Apt) (utcNow : Int) :
    Except String (Option Apt) :=
  let now := utcNow - 5 * 3600
  (collectActive now appointments).map (fun actives => (sortByStart actives).head?)

/-- The record scan of `get_current_appointment` (src/main.py lines
142-147): a record is kept when it belongs to the given patient, is booked,
and starts at or after `now`.  Unlike the active-appointment scan there is
no try/except here, so a missing `start` key (`KeyError`) or an unparseable
value (`ValueError`) escapes and aborts the whole call. -/
def collectUpcoming (patient_id : Int) (now : Int) : List Apt → Except String (List Apt)
  | [] => .ok []
  | apt :: rest =>
    if apt.patient_id == some patient_id && apt.status == some "booked" then
      match apt.start with
      | none => .error "KeyError: start"
      | some raw =>
        match fromisoformat raw with
        | none => .error ("ValueError: Invalid isoformat string: " ++ raw)
        | some st =>
          if startSec st ≥ now then
            (collectUpcoming patient_id now rest).map (fun l => apt :: l)
          else
            collectUpcoming patient_id now rest
    else
      collectUpcoming patient_id now rest

/-- The handler of the per-patient current-appointment route (src/main.py
lines 135-154), as a function of the snapshot, the patient id and the raw
clock reading `now` (in seconds): starts are compared against
`datetime.now()` directly, with no fixed-offset shift; the handler returns
Python `None` (modelled `none`) when no upcoming booked appointment exists,
and otherwise the earliest by raw start string. -/
def get_current_appointment (appointments : List Apt) (patient_id : Int) (now : Int) :
    Except String (Option Apt) :=
  (collectUpcoming patient_id now appointments).map (fun up => (sortByStart up).head?)

/-- The condition under which the active scan keeps a record, read off
src/main.py lines 99-110: booked and truthily assigned, parseable start,
usable duration, and the window containing `now`. -/
def isActiveAt (now : Int) (apt : Apt) : Bool :=
  bookedAssigned apt &&
    match apt.start with
    | none => false
    | some raw =>
      match fromisoformat raw with
      | none => false
      | some st =>
        match durOf apt with
        | none => false
        | some k => decide (startSec st ≤ now ∧ now < startSec st + 60 * k)

/-- A record on which the active scan raises the uncaught `TypeError`:
booked and truthily assigned, parseable start, stored-null slot duration. -/
def raisesTypeError (apt : Apt) : Bool :=
  bookedAssigned apt &&
    match apt.start with
    | none => false
    | some raw =>
      match fromisoformat raw with
      | none => false
      | some _ => durOf apt == none

/-- The condition under which the per-patient scan keeps a record, read off
src/main.py lines 144-146: the given patient's booked record, parseable
start, starting at or after `now`. -/
def qualifiesFor (patient_id now : Int) (apt : Apt) : Bool :=
  (apt.patient_id == some patient_id && apt.status == some "booked") &&
    match apt.start with
    | none => false
    | some raw =>
      match fromisoformat raw with
      | none => false
      | some st => decide (startSec st ≥ now)

/-- The first element, in input order, among those of the list whose
`startKey` is lexicographically smallest: what taking the head of a stable
sort by `startKey` selects. -/
def firstMinByStart : List Apt → Option Apt
  | [] => none
  | a :: t =>
    match firstMinByStart t with
    | none => some a
    | some m => some (if strLe (startKey a) (startKey m) then a else m)

end BeamHealth

deriving instance DecidableEq for Except

namespace BeamHealth

/-! ### Lemmas about the stable sort and the minimum selection -/

theorem insertByStart_head (a : Apt) (l : List Apt) :
    (insertByStart a l).head? =
      some (match l.head? with
            | none => a
            | some b => if strLe (startKey a) (startKey b) then a else b) := by
  cases l with
  | nil => rfl
  | cons b t =>
    by_cases h : strLe (startKey a) (startKey b) = true <;> simp [insertByStart, h]

theorem head_sortByStart (l : List Apt) :
    (sortByStart l).head? = firstMinByStart l := by
  induction l with
  | nil => rfl
  | cons a t ih =>
    rw [sortByStart, insertByStart_head, firstMinByStart, ← ih]
    cases h : (sortByStart t).head? <;> simp

theorem mem_insertByStart {x a : Apt} {l : List Apt} :
    x ∈ insertByStart a l ↔ x = a ∨ x ∈ l := by
  induction l with
  | nil => simp [insertByStart]
  | cons b t ih =>
    by_cases h : strLe (startKey a) (startKey b) = true
    · simp [insertByStart, h]
    · simp [insertByStart, h, ih]
      tauto

theorem mem_sortByStart {x : Apt} {l : List Apt} :
    x ∈ sortByStart l ↔ x ∈ l := by
  induction l with
  | nil => simp [sortByStart]
  | cons a t ih => simp [sortByStart, mem_insertByStart, ih]

theorem listLe_refl : ∀ xs, listLe xs xs = true
  | [] => rfl
  | c :: cs => by
    rw [listLe]
    simp [Nat.lt_irrefl, listLe_refl cs]

theorem listLe_cons_iff {c d : Char} {cs ds : List Char} :
    listLe (c :: cs) (d :: ds) = true ↔
      c.toNat < d.toNat ∨ (c.toNat = d.toNat ∧ listLe cs ds = true) := by
  rw [listLe]
  by_cases h1 : c.toNat < d.toNat
  · simp [h1]
  · by_cases h2 : d.toNat < c.toNat
    · simp [h1, h2]
      omega
    · have he : c.toNat = d.toNat := by omega
      simp [h1, h2, he]

theorem listLe_total : ∀ xs ys, listLe xs ys = true ∨ listLe ys xs = true
  | [], _ => Or.inl rfl
  | _ :: _, [] => Or.inr rfl
  | c :: cs, d :: ds => by
    rw [listLe_cons_iff, listLe_cons_iff]
    rcases Nat.lt_trichotomy c.toNat d.toNat with h | h | h
    · exact Or.inl (Or.inl h)
    · rcases listLe_total cs ds with ih | ih
      · exact Or.inl (Or.inr ⟨h, ih⟩)
      · exact Or.inr (Or.inr ⟨h.symm, ih⟩)
    · exact Or.inr (Or.inl h)

theorem listLe_trans : ∀ xs ys zs, listLe xs ys = true → listLe ys zs = true →
    listLe xs zs = true
  | [], _, _, _, _ => rfl
  | _ :: _, [], _, h, _ => by cases h
  | _ :: _, _ :: _, [], _, h => by cases h
  | c :: cs, d :: ds, e :: es, h1, h2 => by
    rw [listLe_cons_iff] at h1 h2 ⊢
    rcases h1 with h1 | ⟨h1, h1t⟩
    · rcases h2 with h2 | ⟨h2, h2t⟩
      · exact Or.inl (by omega)
      · exact Or.inl (by omega)
    · rcases h2 with h2 | ⟨h2, h2t⟩
      · exact Or.inl (by omega)
      · exact Or.inr ⟨by omega, listLe_trans cs ds es h1t h2t⟩

theorem strLe_refl (a : String) : strLe a a = true := listLe_refl a.data

theorem strLe_total (a b : String) : strLe a b = true ∨ strLe b a = true :=
  listLe_total a.data b.data

theorem strLe_trans {a b c : String} (h1 : strLe a b = true)
    (h2 : strLe b c = true) : strLe a c = true :=
  listLe_trans a.data b.data c.data h1 h2

theorem firstMinByStart_eq_none {l : List Apt} :
    firstMinByStart l = none ↔ l = [] := by
  cases l with
  | nil => simp [firstMinByStart]
  | cons a t =>
    simp only [firstMinByStart]
    cases firstMinByStart t <;> simp

theorem firstMinByStart_mem {l : List Apt} {a : Apt} :
    firstMinByStart l = some a → a ∈ l := by
  induction l generalizing a with
  | nil => intro h; cases h
  | cons c t ih =>
    intro h
    rw [firstMinByStart] at h
    cases hm : firstMinByStart t with
    | none =>
      rw [hm] at h
      injection h with h
      subst h
      exact List.mem_cons_self _ _
    | some m =>
      rw [hm] at h
      injection h with h
      subst h
      split
      · exact List.mem_cons_self _ _
      · exact List.mem_cons_of_mem _ (ih hm)

theorem firstMinByStart_min {l : List Apt} {a : Apt} :
    firstMinByStart l = some a → ∀ b ∈ l, strLe (startKey a) (startKey b) = true := by
  induction l generalizing a with
  | nil => intro h; cases h
  | cons c t ih =>
    intro h b hb
    rw [firstMinByStart] at h
    cases hm : firstMinByStart t with
    | none =>
      rw [hm] at h
      injection h with h
      subst h
      have ht : t = [] := firstMinByStart_eq_none.mp hm
      subst ht
      rcases List.mem_cons.mp hb with rfl | hb
      · exact strLe_refl _
      · cases hb
    | some m =>
      rw [hm] at h
      injection h with h
      subst h
      rcases List.mem_cons.mp hb with rfl | hb
      · split
        · exact strLe_refl _
        · next hk =>
            rcases strLe_total (startKey b) (startKey m) with hk2 | hk2
            · exact absurd hk2 hk
            · exact hk2
      · split
        · next hk => exact strLe_trans hk (ih hm b hb)
        · exact ih hm b hb


/-! ### Lemmas about the two record scans -/

theorem collectActive_ok_filter {now : Int} {l out : List Apt} :
    collectActive now l = .ok out → out = l.filter (isActiveAt now) := by
  induction l generalizing out with
  | nil => intro h; injection h with h; subst h; rfl
  | cons apt rest ih =>
    intro h
    rw [collectActive] at h
    by_cases hb : bookedAssigned apt = true
    · rw [if_pos hb] at h
      cases hs : apt.start with
      | none =>
        simp only [hs] at h
        simp [List.filter, isActiveAt, hb, hs, ih h]
      | some raw =>
        simp only [hs] at h
        cases hp : fromisoformat raw with
        | none =>
          simp only [hp] at h
          simp [List.filter, isActiveAt, hb, hs, hp, ih h]
        | some st =>
          simp only [hp] at h
          cases hd : durOf apt with
          | none => simp only [hd] at h; cases h
          | some k =>
            simp only [hd] at h
            by_cases hw : startSec st ≤ now ∧ now < startSec st + 60 * k
            · rw [if_pos hw] at h
              cases hr : collectActive now rest with
              | error e => rw [hr] at h; cases h
              | ok out0 =>
                rw [hr] at h
                injection h with h
                subst h
                simp [List.filter, isActiveAt, hb, hs, hp, hd, hw, ih hr]
            · rw [if_neg hw] at h
              simp [List.filter, isActiveAt, hb, hs, hp, hd, hw, ih h]
    · rw [if_neg hb] at h
      simp [List.filter, isActiveAt, hb, ih h]

theorem collectActive_ok_of_no_typeError {now : Int} {l : List Apt} :
    (∀ apt ∈ l, raisesTypeError apt = false) → ∃ out, collectActive now l = .ok out := by
  induction l with
  | nil => intro _; exact ⟨[], rfl⟩
  | cons apt rest ih =>
    intro h
    have hrest : ∀ b ∈ rest, raisesTypeError b = false :=
      fun b hb => h b (List.mem_cons_of_mem _ hb)
    obtain ⟨out0, hout⟩ := ih hrest
    have hapt := h apt (List.mem_cons_self _ _)
    rw [collectActive]
    by_cases hb : bookedAssigned apt = true
    · rw [if_pos hb]
      cases hs : apt.start with
      | none => exact ⟨out0, hout⟩
      | some raw =>
        simp only []
        cases hp : fromisoformat raw with
        | none => exact ⟨out0, hout⟩
        | some st =>
          simp only [hp]
          cases hd : durOf apt with
          | none =>
            exfalso
            simp only [raisesTypeError, hs, hp, hd] at hapt
            simp [hb] at hapt
          | some k =>
            simp only [hd]
            by_cases hw : startSec st ≤ now ∧ now < startSec st + 60 * k
            · rw [if_pos hw, hout]
              exact ⟨apt :: out0, rfl⟩
            · rw [if_neg hw]
              exact ⟨out0, hout⟩
    · rw [if_neg hb]
      exact ⟨out0, hout⟩

theorem collectActive_cons_congr {now : Int} {t1 t2 : List Apt} (a : Apt)
    (h : collectActive now t1 = collectActive now t2) :
    collectActive now (a :: t1) = collectActive now (a :: t2) := by
  rw [collectActive, collectActive]
  by_cases hb : bookedAssigned a = true
  · rw [if_pos hb, if_pos hb]
    cases hs : a.start with
    | none => exact h
    | some raw =>
      simp only []
      cases hp : fromisoformat raw with
      | none => simp only [hp]; exact h
      | some st =>
        simp only [hp]
        cases hd : durOf a with
        | none => rfl
        | some k =>
          simp only []
          by_cases hw : startSec st ≤ now ∧ now < startSec st + 60 * k
          · rw [if_pos hw, if_pos hw, h]
          · rw [if_neg hw, if_neg hw]; exact h
  · rw [if_neg hb, if_neg hb]; exact h

/-- A record with a missing or unparseable start contributes nothing to the
active scan: the exception is caught and the loop moves on. -/
theorem collectActive_skip {now : Int} {bad : Apt} {rest : List Apt}
    (h : bad.start = none ∨ ∃ raw, bad.start = some raw ∧ fromisoformat raw = none) :
    collectActive now (bad :: rest) = collectActive now rest := by
  rw [collectActive]
  by_cases hb : bookedAssigned bad = true
  · rw [if_pos hb]
    rcases h with h | ⟨raw, hraw, hparse⟩
    · simp only [h]
    · simp only [hraw, hparse]
  · rw [if_neg hb]

theorem collectActive_middle_skip {now : Int} {bad : Apt} (l1 l2 : List Apt)
    (h : bad.start = none ∨ ∃ raw, bad.start = some raw ∧ fromisoformat raw = none) :
    collectActive now (l1 ++ bad :: l2) = collectActive now (l1 ++ l2) := by
  induction l1 with
  | nil => exact collectActive_skip h
  | cons a t ih => exact collectActive_cons_congr a ih

theorem collectUpcoming_ok_filter {patient_id now : Int} {l out : List Apt} :
    collectUpcoming patient_id now l = .ok out →
      out = l.filter (qualifiesFor patient_id now) := by
  induction l generalizing out with
  | nil => intro h; injection h with h; subst h; rfl
  | cons apt rest ih =>
    intro h
    rw [collectUpcoming] at h
    by_cases hb : (apt.patient_id == some patient_id && apt.status == some "booked") = true
    · rw [if_pos hb] at h
      cases hs : apt.start with
      | none => simp only [hs] at h; cases h
      | some raw =>
        simp only [hs] at h
        cases hp : fromisoformat raw with
        | none => simp only [hp] at h; cases h
        | some st =>
          simp only [hp] at h
          by_cases hw : startSec st ≥ now
          · rw [if_pos hw] at h
            cases hr : collectUpcoming patient_id now rest with
            | error e => rw [hr] at h; cases h
            | ok out0 =>
              rw [hr] at h
              injection h with h
              subst h
              simp [List.filter, qualifiesFor, hb, hs, hp, hw, ih hr]
          · rw [if_neg hw] at h
            simp [List.filter, qualifiesFor, hb, hs, hp, hw, ih h]
    · rw [if_neg hb] at h
      simp [List.filter, qualifiesFor, hb, ih h]

/-! ### Inversion helpers for the two handlers -/

theorem get_active_ok {appointments : List Apt} {utcNow : Int} {r : Option Apt}
    (h : get_active_appointment appointments utcNow = .ok r) :
    ∃ out, collectActive (utcNow - 5 * 3600) appointments = .ok out ∧
      r = (sortByStart out).head? := by
  rw [get_active_appointment] at h
  cases hc : collectActive (utcNow - 5 * 3600) appointments with
  | error e => rw [hc] at h; cases h
  | ok out =>
    rw [hc] at h
    injection h with h
    exact ⟨out, rfl, h.symm⟩

theorem get_current_ok {appointments : List Apt} {patient_id now : Int} {r : Option Apt}
    (h : get_current_appointment appointments patient_id now = .ok r) :
    ∃ out, collectUpcoming patient_id now appointments = .ok out ∧
      r = (sortByStart out).head? := by
  rw [get_current_appointment] at h
  cases hc : collectUpcoming patient_id now appointments with
  | error e => rw [hc] at h; cases h
  | ok out =>
    rw [hc] at h
    injection h with h
    exact ⟨out, rfl, h.symm⟩

/-- Behaviour of the active scan on a single eligible, parseable record with
a usable duration: it is kept exactly when the window contains `now`. -/
theorem collectActive_singleton {apt : Apt} {now : Int} {raw : String}
    {st : PDateTime} {k : Int} (hb : bookedAssigned apt = true)
    (hs : apt.start = some raw) (hp : fromisoformat raw = some st)
    (hd : durOf apt = some k) :
    collectActive now [apt] =
      .ok (if startSec st ≤ now ∧ now < startSec st + 60 * k then [apt] else []) := by
  rw [collectActive, if_pos hb]
  simp only [hs, hp, hd]
  by_cases hw : startSec st ≤ now ∧ now < startSec st + 60 * k
  · rw [if_pos hw, if_pos hw]; rfl
  · rw [if_neg hw, if_neg hw]; rfl

/-- Unfolding of the keep-condition of the per-patient scan. -/
theorem qualifiesFor_spec {patient_id now : Int} {apt : Apt} :
    qualifiesFor patient_id now apt = true ↔
      apt.patient_id = some patient_id ∧ apt.status = some "booked" ∧
        ∃ raw st, apt.start = some raw ∧ fromisoformat raw = some st ∧
          startSec st ≥ now := by
  rw [qualifiesFor]
  simp only [Bool.and_eq_true, beq_iff_eq]
  constructor
  · rintro ⟨⟨h1, h2⟩, h3⟩
    refine ⟨h1, h2, ?_⟩
    cases hs : apt.start with
    | none => simp only [hs] at h3; cases h3
    | some raw =>
      simp only [hs] at h3
      cases hp : fromisoformat raw with
      | none => simp only [hp] at h3; cases h3
      | some st =>
        simp only [hp, decide_eq_true_eq] at h3
        exact ⟨raw, st, rfl, hp, h3⟩
  · rintro ⟨h1, h2, raw, st, hraw, hparse, h3⟩
    refine ⟨⟨h1, h2⟩, ?_⟩
    simp only [hraw, hparse, decide_eq_true_eq]
    exact h3

/-- A record kept by the active scan passed the booked-and-assigned guard. -/
theorem isActiveAt_bookedAssigned {now : Int} {apt : Apt}
    (h : isActiveAt now apt = true) : bookedAssigned apt = true := by
  simp only [isActiveAt, Bool.and_eq_true] at h
  exact h.1

/-! ### Concrete records used by witnesses and counterexamples

`63901126800 = toSeconds` of 2025-12-12T09:00:00; `+ 5 * 3600` converts a
local instant into the UTC clock reading whose fixed-offset shift lands on
it. -/

/-- A booked, assigned record whose stored `slot_duration` is null. -/
def aptNullDur : Apt :=
  ⟨1, some "booked", some 7, some "2025-12-12T09:00:00", some none⟩

/-- A booked record whose `patient_id` is the integer 0. -/
def aptZeroPid : Apt :=
  ⟨2, some "booked", some 0, some "2025-12-12T09:00:00", some (some 30)⟩

/-- A booked, assigned record with no `slot_duration` key. -/
def aptMissingDur : Apt :=
  ⟨3, some "booked", some 7, some "2025-12-12T09:00:00", none⟩

/-- A well-formed booked record starting 2025-12-12T09:00:00. -/
def aptC2 : Apt :=
  ⟨4, some "booked", some 7, some "2025-12-12T09:00:00", some (some 30)⟩

/-- Twin of `aptC2` for another patient, with an identical start string. -/
def aptT4 : Apt :=
  ⟨5, some "booked", some 8, some "2025-12-12T09:00:00", some (some 30)⟩

/-- A booked record whose start string uses a space separator and a later
start time. -/
def aptSpace : Apt :=
  ⟨6, some "booked", some 7, some "2025-12-12 09:10:00", some (some 30)⟩

/-- A booked record for patient 7 whose start string does not parse. -/
def aptBadStart : Apt :=
  ⟨7, some "booked", some 7, some "not-a-date", some (some 30)⟩

/-- A booked record for patient 7 starting 2025-12-15T10:00:00. -/
def aptP : Apt :=
  ⟨8, some "booked", some 7, some "2025-12-15T10:00:00", some (some 30)⟩

/-! ### The claims -/

/-- C1: for every appointment list and instant the resolver yields at most
one record (its success value is an `Option` drawn from the snapshot), and
whenever no record matches — provided no eligible, parseable record stores a
null `slot_duration`, which the code turns into an uncaught `TypeError`
rather than an empty result — the call returns the explicit empty object,
not an error. -/
theorem C1_at_most_one_and_empty (appointments : List Apt) (utcNow : Int) :
    (∀ r apt, get_active_appointment appointments utcNow = .ok r →
      r = some apt → apt ∈ appointments) ∧
    ((∀ apt ∈ appointments, raisesTypeError apt = false) →
      appointments.filter (isActiveAt (utcNow - 5 * 3600)) = [] →
      get_active_appointment appointments utcNow = .ok none) := by
  constructor
  · intro r apt h hr
    subst hr
    obtain ⟨out, hout, hr⟩ := get_active_ok h
    have hfil := collectActive_ok_filter hout
    subst hfil
    have hmem : apt ∈ sortByStart (appointments.filter (isActiveAt (utcNow - 5 * 3600))) := by
      cases hh : sortByStart (appointments.filter (isActiveAt (utcNow - 5 * 3600))) with
      | nil => rw [hh] at hr; cases hr
      | cons x t =>
        rw [hh] at hr
        injection hr with hr
        rw [hr]
        exact List.mem_cons_self _ _
    exact List.mem_of_mem_filter (mem_sortByStart.mp hmem)
  · intro hty hfil
    obtain ⟨out, hout⟩ := collectActive_ok_of_no_typeError hty
    have := collectActive_ok_filter hout
    rw [hfil] at this
    subst this
    rw [get_active_appointment, hout]
    rfl

/-- C1 witness: a concrete no-match snapshot on which the second part of the
theorem produces the empty result. -/
theorem C1_witness :
    get_active_appointment [aptC2] 0 = .ok none :=
  (C1_at_most_one_and_empty [aptC2] 0).2 (by decide) (by decide)

/-- C1 counterexample: a snapshot with a single booked, assigned,
parseable record storing a null `slot_duration`: no record matches, yet the
call fails with the uncaught `TypeError` instead of returning the empty
result the claim promises. -/
theorem C1_counterexample :
    List.filter (isActiveAt (0 - 5 * 3600)) [aptNullDur] = [] ∧
    get_active_appointment [aptNullDur] 0 =
      .error "TypeError: unsupported type for timedelta minutes component: NoneType" := by
  decide

/-- C2: an eligible record with parseable start `st` and usable duration `k`
matches at `now` exactly when `startSec st ≤ now < startSec st + 60 * k`:
the start boundary is inclusive and the end boundary exclusive. -/
theorem C2_window_matching (apt : Apt) (now : Int) (raw : String)
    (st : PDateTime) (k : Int) (hb : bookedAssigned apt = true)
    (hs : apt.start = some raw) (hp : fromisoformat raw = some st)
    (hd : durOf apt = some k) :
    collectActive now [apt] =
      .ok (if startSec st ≤ now ∧ now < startSec st + 60 * k then [apt] else []) :=
  collectActive_singleton hb hs hp hd

/-- C2 witness: the concrete record starting 2025-12-12T09:00:00 with a
30-minute slot matches at its exact start instant and no longer matches at
its exact end instant. -/
theorem C2_witness :
    collectActive 63901126800 [aptC2] = .ok [aptC2] ∧
    collectActive 63901128600 [aptC2] = .ok [] := by
  constructor
  · rw [C2_window_matching aptC2 63901126800 "2025-12-12T09:00:00"
      ⟨2025, 12, 12, 9, 0, 0⟩ 30 (by decide) (by decide) (by decide) (by decide)]
    decide
  · rw [C2_window_matching aptC2 63901128600 "2025-12-12T09:00:00"
      ⟨2025, 12, 12, 9, 0, 0⟩ 30 (by decide) (by decide) (by decide) (by decide)]
    decide

/-- C3 (amended): the resolver discards a record exactly when it fails the
guard `status == "booked" and patient_id`, which tests the patient id for
Python truthiness: an absent id, a null id, and also the integer 0 are all
discarded, so "present and non-null" is not quite sufficient for
eligibility. -/
theorem C3_discard_guard :
    (∀ now (apt : Apt) rest, bookedAssigned apt = false →
      collectActive now (apt :: rest) = collectActive now rest) ∧
    (∀ appointments utcNow apt,
      get_active_appointment appointments utcNow = .ok (some apt) →
      bookedAssigned apt = true) := by
  constructor
  · intro now apt rest hb
    rw [collectActive, if_neg (by simp [hb])]
  · intro appointments utcNow apt h
    obtain ⟨out, hout, hr⟩ := get_active_ok h
    have hfil := collectActive_ok_filter hout
    subst hfil
    have hmem : apt ∈ sortByStart (appointments.filter (isActiveAt (utcNow - 5 * 3600))) := by
      cases hh : sortByStart (appointments.filter (isActiveAt (utcNow - 5 * 3600))) with
      | nil => rw [hh] at hr; cases hr
      | cons x t =>
        rw [hh] at hr
        injection hr with hr
        rw [hr]
        exact List.mem_cons_self _ _
    exact isActiveAt_bookedAssigned
      (List.of_mem_filter (mem_sortByStart.mp hmem))

/-- C3 witness: a non-booked record is skipped by the scan, and the record
the resolver returns on a concrete snapshot passes the guard. -/
theorem C3_witness :
    collectActive 63901126800 [⟨9, some "available", none, some "2025-12-12T09:00:00", some (some 30)⟩, aptC2] =
      collectActive 63901126800 [aptC2] ∧
    bookedAssigned aptC2 = true :=
  ⟨C3_discard_guard.1 63901126800 _ [aptC2] (by decide),
   C3_discard_guard.2 [aptC2] (63901126800 + 5 * 3600) aptC2 (by decide)⟩

/-- C3 counterexample: a booked record whose `patient_id` is present and
non-null — the integer 0 — and whose window contains the instant, yet the
resolver discards it and returns the empty result, because the code tests
truthiness rather than presence. -/
theorem C3_counterexample :
    aptZeroPid.status = some "booked" ∧
    aptZeroPid.patient_id = some 0 ∧
    aptZeroPid.patient_id ≠ none ∧
    (startSec ⟨2025, 12, 12, 9, 0, 0⟩ ≤ 63901126800 + 900 ∧
      63901126800 + 900 < startSec ⟨2025, 12, 12, 9, 0, 0⟩ + 60 * 30) ∧
    fromisoformat "2025-12-12T09:00:00" = some ⟨2025, 12, 12, 9, 0, 0⟩ ∧
    get_active_appointment [aptZeroPid] (63901126800 + 5 * 3600 + 900) = .ok none := by
  decide

/-- C4 (amended): the 30-minute default applies only when the
`slot_duration` key is missing; a stored null is not defaulted but reaches
`timedelta(minutes=None)`, whose uncaught `TypeError` aborts the whole
call with an error. -/
theorem C4_default_and_null (now : Int) (apt : Apt) (rest : List Apt)
    (raw : String) (st : PDateTime) (hb : bookedAssigned apt = true)
    (hs : apt.start = some raw) (hp : fromisoformat raw = some st) :
    (apt.slot_duration = none →
      collectActive now (apt :: rest) =
        if startSec st ≤ now ∧ now < startSec st + 60 * 30 then
          (collectActive now rest).map (fun l => apt :: l)
        else collectActive now rest) ∧
    (apt.slot_duration = some none →
      collectActive now (apt :: rest) =
        .error "TypeError: unsupported type for timedelta minutes component: NoneType") := by
  constructor
  · intro hnone
    rw [collectActive, if_pos hb]
    simp only [hs, hp, durOf, hnone]
  · intro hnull
    rw [collectActive, if_pos hb]
    simp only [hs, hp, durOf, hnull]

/-- C4 witness: with the key missing the record is matched under the
30-minute default; with a stored null the same snapshot errors out. -/
theorem C4_witness :
    collectActive 63901127700 [aptMissingDur] = .ok [aptMissingDur] ∧
    collectActive 63901127700 [aptNullDur] =
      .error "TypeError: unsupported type for timedelta minutes component: NoneType" := by
  constructor
  · rw [(C4_default_and_null 63901127700 aptMissingDur [] "2025-12-12T09:00:00"
      ⟨2025, 12, 12, 9, 0, 0⟩ (by decide) (by decide) (by decide)).1 (by decide)]
    decide
  · exact (C4_default_and_null 63901127700 aptNullDur [] "2025-12-12T09:00:00"
      ⟨2025, 12, 12, 9, 0, 0⟩ (by decide) (by decide) (by decide)).2 (by decide)

/-- C4 counterexample: a booked, assigned, parseable record with a stored
null `slot_duration` at an instant inside its would-be 30-minute window:
instead of being treated as a 30-minute slot and returned, it makes the
whole call fail; the sibling record with the key missing is returned. -/
theorem C4_counterexample :
    get_active_appointment [aptNullDur] (63901126800 + 5 * 3600 + 900) =
      .error "TypeError: unsupported type for timedelta minutes component: NoneType" ∧
    get_active_appointment [aptMissingDur] (63901126800 + 5 * 3600 + 900) =
      .ok (some aptMissingDur) := by
  decide

/-- C5: the resolver judges a record active by comparing its stored window
against the UTC clock reading shifted by a fixed minus-5-hour offset — the
eligible singleton snapshot is returned exactly when
`startSec st ≤ utcNow - 5 * 3600 < startSec st + 60 * k`, with the shifted
instant compared naively (no timezone indicator) against the stored start. -/
theorem C5_fixed_offset (apt : Apt) (utcNow : Int) (raw : String)
    (st : PDateTime) (k : Int) (hb : bookedAssigned apt = true)
    (hs : apt.start = some raw) (hp : fromisoformat raw = some st)
    (hd : durOf apt = some k) :
    get_active_appointment [apt] utcNow = .ok (some apt) ↔
      startSec st ≤ utcNow - 5 * 3600 ∧ utcNow - 5 * 3600 < startSec st + 60 * k := by
  simp only [get_active_appointment]
  rw [collectActive_singleton hb hs hp hd]
  by_cases hw : startSec st ≤ utcNow - 5 * 3600 ∧ utcNow - 5 * 3600 < startSec st + 60 * k
  · rw [if_pos hw]
    exact iff_of_true rfl hw
  · rw [if_neg hw]
    simp only [Except.map, sortByStart, List.head?]
    constructor
    · intro h; injection h with h; cases h
    · intro h; exact absurd h hw

/-- C5 witness: the concrete 09:00 record is returned at the UTC reading
whose shifted value 09:15 lies inside the window. -/
theorem C5_witness :
    get_active_appointment [aptC2] (63901126800 + 5 * 3600 + 900) = .ok (some aptC2) :=
  (C5_fixed_offset aptC2 (63901126800 + 5 * 3600 + 900) "2025-12-12T09:00:00"
    ⟨2025, 12, 12, 9, 0, 0⟩ 30 (by decide) (by decide) (by decide) (by decide)).mpr
    (by decide)

/-- C6: a record whose start is missing or unparseable is skipped without
failing the call and without influencing the result: deleting it from the
snapshot, wherever it sits, leaves the resolver output unchanged. -/
theorem C6_malformed_skipped (bad : Apt)
    (h : bad.start = none ∨ ∃ raw, bad.start = some raw ∧ fromisoformat raw = none)
    (l1 l2 : List Apt) (utcNow : Int) :
    get_active_appointment (l1 ++ bad :: l2) utcNow =
      get_active_appointment (l1 ++ l2) utcNow := by
  simp only [get_active_appointment]
  rw [collectActive_middle_skip l1 l2 h]

/-- C6 witness: a malformed record ahead of a matching one neither fails the
call nor suppresses the match. -/
theorem C6_witness :
    get_active_appointment [aptBadStart, aptC2] (63901126800 + 5 * 3600 + 900) =
      .ok (some aptC2) := by
  have h := C6_malformed_skipped aptBadStart
    (Or.inr ⟨"not-a-date", rfl, by decide⟩) [] [aptC2] (63901126800 + 5 * 3600 + 900)
  rw [List.nil_append, List.nil_append] at h
  rw [h]
  decide

/-- C7 (amended): among the matching records the resolver returns the first,
in input order, of those whose raw start string is lexicographically
smallest.  For start strings of a single uniform format this is the
temporally earliest start, but the comparison is on strings, and records
whose start strings tie are selected by input position, so the result is not
invariant under permutation in general. -/
theorem C7_selection (appointments : List Apt) (utcNow : Int)
    (hty : ∀ apt ∈ appointments, raisesTypeError apt = false) :
    get_active_appointment appointments utcNow =
      .ok (firstMinByStart (appointments.filter (isActiveAt (utcNow - 5 * 3600)))) ∧
    ∀ apt,
      firstMinByStart (appointments.filter (isActiveAt (utcNow - 5 * 3600))) = some apt →
      apt ∈ appointments ∧ isActiveAt (utcNow - 5 * 3600) apt = true ∧
        ∀ b ∈ appointments, isActiveAt (utcNow - 5 * 3600) b = true →
          strLe (startKey apt) (startKey b) = true := by
  obtain ⟨out, hout⟩ :=
    @collectActive_ok_of_no_typeError (utcNow - 5 * 3600) appointments hty
  have hfil := collectActive_ok_filter hout
  subst hfil
  constructor
  · simp only [get_active_appointment]
    rw [hout]
    simp only [Except.map]
    rw [head_sortByStart]
  · intro apt hfm
    refine ⟨List.mem_of_mem_filter (firstMinByStart_mem hfm),
      List.of_mem_filter (firstMinByStart_mem hfm), ?_⟩
    intro b hb hab
    exact firstMinByStart_min hfm b (List.mem_filter.mpr ⟨hb, hab⟩)

/-- C7 witness: on a concrete two-record snapshot the resolver output is the
first input-order record among those of smallest start string, and that
record matches and has a minimal key. -/
theorem C7_witness :
    get_active_appointment [aptT4, aptC2] (63901126800 + 5 * 3600 + 900) =
      .ok (firstMinByStart
        (List.filter (isActiveAt ((63901126800 + 5 * 3600 + 900) - 5 * 3600))
          [aptT4, aptC2])) ∧
    firstMinByStart
        (List.filter (isActiveAt ((63901126800 + 5 * 3600 + 900) - 5 * 3600))
          [aptT4, aptC2]) = some aptT4 :=
  ⟨(C7_selection [aptT4, aptC2] (63901126800 + 5 * 3600 + 900) (by decide)).1,
   by decide⟩

/-- C7 counterexample: with two matching records sharing one start string
the resolver returns whichever comes first, so permuting the input changes
the result; and with mixed separator formats the lexicographically smallest
start string belongs to the temporally later record, which is returned over
the temporally earliest one. -/
theorem C7_counterexample :
    (get_active_appointment [aptC2, aptT4] (63901126800 + 5 * 3600 + 900) =
        .ok (some aptC2) ∧
      get_active_appointment [aptT4, aptC2] (63901126800 + 5 * 3600 + 900) =
        .ok (some aptT4) ∧
      aptC2 ≠ aptT4) ∧
    (get_active_appointment [aptC2, aptSpace] (63901128000 + 5 * 3600) =
        .ok (some aptSpace) ∧
      fromisoformat "2025-12-12T09:00:00" = some ⟨2025, 12, 12, 9, 0, 0⟩ ∧
      fromisoformat "2025-12-12 09:10:00" = some ⟨2025, 12, 12, 9, 10, 0⟩ ∧
      startSec ⟨2025, 12, 12, 9, 0, 0⟩ < startSec ⟨2025, 12, 12, 9, 10, 0⟩) := by
  decide

/-- C8: the per-patient query keeps exactly the booked records of the given
patient whose parseable start is at or after the raw instant `now` — no
fixed-offset shift is applied to `now` anywhere in `get_current_appointment`
— and on success returns the empty result exactly when no record qualifies,
and otherwise a qualifying record of the snapshot whose raw start string is
smallest. -/
theorem C8_current_query (appointments : List Apt) (patient_id now : Int)
    (r : Option Apt)
    (h : get_current_appointment appointments patient_id now = .ok r) :
    (r = none ↔ appointments.filter (qualifiesFor patient_id now) = []) ∧
    (∀ apt, r = some apt →
      apt.patient_id = some patient_id ∧ apt.status = some "booked" ∧
      (∃ raw st, apt.start = some raw ∧ fromisoformat raw = some st ∧
        startSec st ≥ now) ∧
      apt ∈ appointments ∧
      ∀ b ∈ appointments, qualifiesFor patient_id now b = true →
        strLe (startKey apt) (startKey b) = true) := by
  obtain ⟨out, hout, hr⟩ := get_current_ok h
  have hfil := collectUpcoming_ok_filter hout
  subst hfil
  rw [head_sortByStart] at hr
  constructor
  · constructor
    · intro hnone
      rw [hnone] at hr
      exact firstMinByStart_eq_none.mp hr.symm
    · intro hnil
      rw [hnil] at hr
      simpa [firstMinByStart] using hr
  · intro apt hra
    rw [hra] at hr
    have hfm := hr.symm
    have hmem := firstMinByStart_mem hfm
    have hq := List.of_mem_filter hmem
    obtain ⟨h1, h2, h3⟩ := qualifiesFor_spec.mp hq
    refine ⟨h1, h2, h3, List.mem_of_mem_filter hmem, ?_⟩
    intro b hb hqb
    exact firstMinByStart_min hfm b (List.mem_filter.mpr ⟨hb, hqb⟩)

/-- C8 witness: a concrete upcoming booked record for patient 7 is returned
with all the qualifying properties at the raw instant 0. -/
theorem C8_witness :
    aptP.patient_id = some 7 ∧ aptP.status = some "booked" ∧
    (∃ raw st, aptP.start = some raw ∧ fromisoformat raw = some st ∧
      startSec st ≥ 0) ∧
    aptP ∈ [aptP] ∧
    ∀ b ∈ [aptP], qualifiesFor 7 0 b = true →
      strLe (startKey aptP) (startKey b) = true :=
  (C8_current_query [aptP] 7 0 (some aptP) (by decide)).2 aptP rfl

/-- C9 (amended): in the per-patient query a matching record whose start is
missing or unparseable is not skipped: the uncaught exception aborts the
whole call with an error. -/
theorem C9_malformed_fatal (patient_id now : Int) (apt : Apt) (rest : List Apt)
    (hpid : apt.patient_id = some patient_id) (hst : apt.status = some "booked")
    (hbad : apt.start = none ∨
      ∃ raw, apt.start = some raw ∧ fromisoformat raw = none) :
    ∃ e, get_current_appointment (apt :: rest) patient_id now = .error e := by
  rw [get_current_appointment, collectUpcoming]
  rw [if_pos (by simp [hpid, hst])]
  rcases hbad with hb | ⟨raw, hraw, hparse⟩
  · simp only [hb]
    exact ⟨"KeyError: start", rfl⟩
  · simp only [hraw, hparse]
    exact ⟨"ValueError: Invalid isoformat string: " ++ raw, rfl⟩

/-- C9 witness: a single malformed booked record of the patient already
makes the call fail. -/
theorem C9_witness :
    ∃ e, get_current_appointment [aptBadStart] 7 0 = .error e :=
  C9_malformed_fatal 7 0 aptBadStart [] (by decide) (by decide)
    (Or.inr ⟨"not-a-date", rfl, by decide⟩)

/-- C9 counterexample: with a malformed booked record of patient 7 in the
snapshot the call errors instead of skipping it, even though a valid
returnable record follows; alone, the valid record is returned. -/
theorem C9_counterexample :
    get_current_appointment [aptBadStart, aptP] 7 0 =
      .error "ValueError: Invalid isoformat string: not-a-date" ∧
    get_current_appointment [aptP] 7 0 = .ok (some aptP) := by
  decide

/-- C10: a record the per-patient query returns starts at or after the raw
instant `now` (boundary inclusive), so a booked record of the patient whose
start lies strictly before `now` — even one whose window still contains
`now` — is never the one returned. -/
theorem C10_no_in_progress (appointments : List Apt) (patient_id now : Int)
    (apt : Apt)
    (h : get_current_appointment appointments patient_id now = .ok (some apt)) :
    (∃ raw st, apt.start = some raw ∧ fromisoformat raw = some st ∧
      now ≤ startSec st) ∧
    (∀ b ∈ appointments, b.patient_id = some patient_id →
      b.status = some "booked" →
      ∀ rawb stb, b.start = some rawb → fromisoformat rawb = some stb →
        startSec stb < now → b ≠ apt) := by
  obtain ⟨out, hout, hr⟩ := get_current_ok h
  have hfil := collectUpcoming_ok_filter hout
  subst hfil
  rw [head_sortByStart] at hr
  have hfm := hr.symm
  have hmem := firstMinByStart_mem hfm
  have hq := List.of_mem_filter hmem
  obtain ⟨h1, h2, raw, st, hraw, hparse, hge⟩ := qualifiesFor_spec.mp hq
  constructor
  · exact ⟨raw, st, hraw, hparse, hge⟩
  · intro b hb hbp hbs rawb stb hbraw hbparse hlt heq
    subst heq
    rw [hraw] at hbraw
    injection hbraw with hbraw
    subst hbraw
    rw [hparse] at hbparse
    injection hbparse with hbparse
    subst hbparse
    omega

/-- C10 witness: at the raw instant 09:15 the patient's 09:00 record is in
progress (inside its half-open window) yet the query returns the later
2025-12-15 record, and the in-progress record is provably not the result. -/
theorem C10_witness :
    (∃ raw st, aptP.start = some raw ∧ fromisoformat raw = some st ∧
      (63901127700 : Int) ≤ startSec st) ∧
    aptC2 ≠ aptP := by
  have h := C10_no_in_progress [aptC2, aptP] 7 63901127700 aptP (by decide)
  exact ⟨h.1, h.2 aptC2 (by decide) (by decide) (by decide)
    "2025-12-12T09:00:00" ⟨2025, 12, 12, 9, 0, 0⟩ (by decide) (by decide)
    (by decide)⟩

end BeamHealth
